import Mathlib

/-!
Verification development for the Meister ProPR testbed backend.

The repository ships two near-identical implementations of the same dummy
review-job backend: a TLS-capable TypeScript one (`src/testbed/backend.ts`)
and a plain-HTTP JavaScript one (`src/unnamed/part_000`).  This file embeds
the job data model, the job store, the two-timer lifecycle scheduler, the
three authenticated HTTP job operations and the certificate manager as
executable Lean definitions, and proves the specification claims about them.

Modelling conventions:
* JSON values are the inductive `Json`; a request body is the outcome of
  `JSON.parse` (`Option Json`, `none` when parsing threw and the code
  substitutes `{}`).
* ISO-8601 timestamps produced by `new Date().toISOString()` are
  order-isomorphic to the underlying clock value, so timestamps are `Nat`.
* `setTimeout` callbacks are modelled by explicit store transformers
  (`applyT1`, `applyT2`) plus a timer-ordering model (`firesBefore`):
  Node fires timers in order of their delay, ties broken by registration
  order (the T1 timer of a job is always registered before its T2 timer).
* Fresh UUIDs (`randomUUID`) and the current clock are oracle parameters.
* File IO of the certificate manager is modelled by an abstract file-system
  snapshot (`Option String` per file) and the external library calls
  (`X509Certificate` parsing, `selfsigned.generate`) by function parameters.
-/

/-- Job lifecycle states, from the `JobStatus` union type of the source. -/
inductive JobStatus where
  | pending
  | processing
  | completed
  | failed
deriving DecidableEq

/-- Severity tag of a review comment (source `ReviewComment.severity`). -/
inductive Severity where
  | error
  | warning
  | suggestion
  | info
deriving DecidableEq

/-- A single review comment (source interface `ReviewComment`). -/
structure ReviewComment where
  filePath : Option String
  lineNumber : Option Nat
  severity : Severity
  message : String
deriving DecidableEq

/-- A review payload attached to a completed job (source `ReviewResult`). -/
structure ReviewResult where
  summary : String
  comments : List ReviewComment
deriving DecidableEq

/-- JSON values, the possible results of `JSON.parse`. -/
inductive Json where
  | null
  | bool (b : Bool)
  | num (q : ℚ)
  | str (s : String)
  | arr (elems : List Json)
  | obj (fields : List (String × Json))

/-- A job record (source interface `Job`).  The five request-context fields
hold arbitrary JSON values: the source stores whatever the submission body
contained, with no type check. -/
structure Job where
  jobId : String
  status : JobStatus
  organizationUrl : Json
  projectId : Json
  repositoryId : Json
  pullRequestId : Json
  iterationId : Json
  submittedAt : Nat
  completedAt : Option Nat
  result : Option ReviewResult
  error : Option String

/-- Server configuration taken from environment variables
(`CLIENT_KEY`, `SIMULATE`, `DELAY_MS`). -/
structure Config where
  clientKey : String
  simulate : String
  delayMs : Nat

/-- An incoming HTTP request as seen by the job-API router: method, URL
pathname, the `X-Client-Key` header (absent or repeated headers are `none`)
and the outcome of `JSON.parse` on the raw body (`none` when parsing threw). -/
structure Req where
  method : String
  path : String
  clientKey : Option String
  body : Option Json

/-- A job summary as produced by `jobToListItem` (no result/error fields). -/
structure ListItem where
  jobId : String
  status : JobStatus
  organizationUrl : Json
  projectId : Json
  repositoryId : Json
  pullRequestId : Json
  iterationId : Json
  submittedAt : Nat
  completedAt : Option Nat

/-- The JSON body of a response of the job API. -/
inductive Resp where
  | errMsg (msg : String)
  | accepted (jobId : String)
  | jobList (items : List ListItem)
  | jobDetail (item : ListItem) (result : Option ReviewResult) (error : Option String)
  | noContent

/-- The mock result attached on success (source `MOCK_SUCCESS_RESULT`). -/
def MOCK_SUCCESS_RESULT : ReviewResult :=
  { summary :=
      "Overall this PR is well-structured and the intent is clear. There are a few issues " ++
      "worth addressing before merging — one potential runtime error, a security concern, " ++
      "and a couple of suggestions to improve maintainability."
    comments :=
      [ { filePath := some "src/auth/login.ts"
          lineNumber := some 42
          severity := Severity.error
          message := "Unhandled promise rejection: the async call on this line lacks a try/catch. " ++
            "If the network request fails, the error will be swallowed silently." }
      , { filePath := some "src/auth/login.ts"
          lineNumber := some 67
          severity := Severity.warning
          message := "Sensitive data (access token) is written to the console on this line. " ++
            "Remove or guard behind a debug flag before deploying to production." }
      , { filePath := some "src/components/UserProfile.tsx"
          lineNumber := some 15
          severity := Severity.suggestion
          message := "This component re-renders on every parent update. " ++
            "Wrapping it with React.memo() would avoid unnecessary renders when props have not changed." }
      , { filePath := some "src/utils/formatDate.ts"
          lineNumber := none
          severity := Severity.suggestion
          message := "Consider using Intl.DateTimeFormat instead of a hand-rolled date formatter — " ++
            "it handles locale and timezone differences automatically." }
      , { filePath := none
          lineNumber := none
          severity := Severity.info
          message := "Test coverage for the authentication module looks thorough. " ++
            "The new login flow is well-structured and the happy path is fully exercised." } ] }

/-- The mock error message attached on simulated failure (source `MOCK_FAIL_ERROR`). -/
def MOCK_FAIL_ERROR : String :=
  "The AI agent could not complete the review: unable to retrieve the diff for pull request " ++
  "(simulated failure — set SIMULATE=success to test the success path)."

/-- JavaScript property read `v[k]` on a JSON value that is not `null`:
on an object it returns the named field, on any other non-null value it
yields `undefined` (here `none`).  Reading a property of JSON `null`
throws a TypeError; callers model that case separately. -/
def getField (v : Json) (k : String) : Option Json :=
  match v with
  | Json.obj fields => (fields.find? (fun p => p.1 == k)).map (fun p => p.2)
  | _ => none

/-- JavaScript loose comparison `x == null`: true exactly for `undefined`
(absent, `none`) and `null`. -/
def looseNull : Option Json → Bool
  | none => true
  | some Json.null => true
  | some _ => false

namespace BackendTs

/-- Default of `DELAY_MS` (source: `parseInt(process.env['DELAY_MS'] ?? '6000', 10)`). -/
def DEFAULT_DELAY_MS : Nat := 6000

/-- The configuration obtained when no environment variable is set. -/
def defaultConfig : Config :=
  { clientKey := "test-client-key", simulate := "success", delayMs := DEFAULT_DELAY_MS }

/-- Source `readBody`: resolves with `JSON.parse` of the collected chunks,
or with `{}` when parsing throws. -/
def readBody : Option Json → Json
  | none => Json.obj []
  | some j => j

/-- Source `checkAuth`: the `x-client-key` header must be exactly the
configured key. -/
def checkAuth (cfg : Config) (key : Option String) : Bool :=
  key == some cfg.clientKey

/-- The 401 response sent by `checkAuth` on a mismatching or missing key. -/
def authFailure (cfg : Config) : Nat × Resp :=
  (401, Resp.errMsg ("Invalid or missing X-Client-Key. Expected: \"" ++ cfg.clientKey ++ "\""))

/-- The five required submission fields, in source order. -/
def requiredFields : List String :=
  ["organizationUrl", "projectId", "repositoryId", "pullRequestId", "iterationId"]

/-- Source: `required.filter(k => body[k] == null)`.  Returns `none` when the
body is JSON `null`, on which the property read `body[k]` throws a TypeError
(the rejection is unhandled and no response is ever sent). -/
def missingFields (body : Json) : Option (List String) :=
  match body with
  | Json.null => none
  | _ => some (requiredFields.filter (fun k => looseNull (getField body k)))

/-- Source `makeJob`: builds the initial job record from the request body
(the five context values are stored verbatim), with a fresh id and the
current time, status `pending` and null `completedAt`, `result`, `error`.
The `getD Json.null` placeholder is never reached by the handler, which
calls `makeJob` only after validating that all five fields are present. -/
def makeJob (body : Json) (jobId : String) (now : Nat) : Job :=
  { jobId := jobId
    status := JobStatus.pending
    organizationUrl := (getField body "organizationUrl").getD Json.null
    projectId := (getField body "projectId").getD Json.null
    repositoryId := (getField body "repositoryId").getD Json.null
    pullRequestId := (getField body "pullRequestId").getD Json.null
    iterationId := (getField body "iterationId").getD Json.null
    submittedAt := now
    completedAt := none
    result := none
    error := none }

/-- Source `jobToListItem`: drops `result` and `error`. -/
def jobToListItem (j : Job) : ListItem :=
  { jobId := j.jobId
    status := j.status
    organizationUrl := j.organizationUrl
    projectId := j.projectId
    repositoryId := j.repositoryId
    pullRequestId := j.pullRequestId
    iterationId := j.iterationId
    submittedAt := j.submittedAt
    completedAt := j.completedAt }

/-- Source `jobs.get(jobId)`: lookup in the store (the `Map` keyed by job id). -/
def getJob (store : List Job) (jobId : String) : Option Job :=
  store.find? (fun j => j.jobId == jobId)

/-- Stable insertion of a job into a list sorted by `submittedAt` descending:
the job is placed before the first entry whose timestamp is not greater. -/
def insertJob (a : Job) : List Job → List Job
  | [] => [a]
  | b :: l => if b.submittedAt ≤ a.submittedAt then a :: b :: l else b :: insertJob a l

/-- Source `[...jobs.values()].sort((a, b) => b.submittedAt.localeCompare(a.submittedAt))`:
a stable sort of the store (which iterates in insertion order) by
`submittedAt` descending.  `localeCompare` on equal-length ISO-8601
timestamps agrees with the numeric order of the underlying clock. -/
def sortedJobs : List Job → List Job
  | [] => []
  | a :: l => insertJob a (sortedJobs l)

/-- Source regex `^\/reviews\/([^/]+)$`: extracts the job id of a poll URL. -/
def pathJobId (p : String) : Option String :=
  if p.startsWith "/reviews/" then
    let rest := p.drop 9
    if rest ≠ "" ∧ rest.contains '/' = false then some rest else none
  else none

/-- Source `handleRequest` (CORS headers aside, which carry no job-API data):
routes the request to the three job operations.  `newId` is the fresh UUID
`randomUUID` would produce and `now` the current clock.  The result is the
HTTP status, the response body and the store after the request; `none` means
the handler threw and no response was sent (see `missingFields`). -/
def handleRequest (cfg : Config) (req : Req) (store : List Job) (newId : String)
    (now : Nat) : Option (Nat × Resp × List Job) :=
  if req.method = "OPTIONS" then
    some (204, Resp.noContent, store)
  else if req.method = "POST" ∧ req.path = "/reviews" then
    if checkAuth cfg req.clientKey then
      match missingFields (readBody req.body) with
      | none => none
      | some missing =>
        if missing ≠ [] then
          some (422, Resp.errMsg ("Missing required fields: " ++ String.intercalate ", " missing), store)
        else
          let job := makeJob (readBody req.body) newId now
          some (202, Resp.accepted job.jobId, store ++ [job])
    else some (authFailure cfg |>.1, authFailure cfg |>.2, store)
  else if req.method = "GET" ∧ req.path = "/reviews" then
    if checkAuth cfg req.clientKey then
      some (200, Resp.jobList ((sortedJobs store).map jobToListItem), store)
    else some (authFailure cfg |>.1, authFailure cfg |>.2, store)
  else
    match pathJobId req.path with
    | some jid =>
      if req.method = "GET" then
        if checkAuth cfg req.clientKey then
          match getJob store jid with
          | none => some (404, Resp.errMsg ("Job not found: " ++ jid), store)
          | some job => some (200, Resp.jobDetail (jobToListItem job) job.result job.error, store)
        else some (authFailure cfg |>.1, authFailure cfg |>.2, store)
      else some (404, Resp.errMsg "Not found", store)
    | none => some (404, Resp.errMsg "Not found", store)

/-- Update the entry of the store holding the given job id, if any (the
store is a `Map`, so at most one entry carries the id; `updateFirst` mirrors
`jobs.get(jobId)` followed by an in-place mutation of the found record). -/
def updateFirst (store : List Job) (jobId : String) (f : Job → Job) : List Job :=
  match store with
  | [] => []
  | j :: rest => if j.jobId = jobId then f j :: rest else j :: updateFirst rest jobId f

/-- The first timer callback of `scheduleJob`: `pending → processing`,
a no-op when the job is not in the store. -/
def applyT1 (store : List Job) (jobId : String) : List Job :=
  updateFirst store jobId (fun j => { j with status := JobStatus.processing })

/-- The second timer callback of `scheduleJob`: resolves the job to
`failed` (with `MOCK_FAIL_ERROR`) when the configured simulation mode is
`fail`, otherwise to `completed` (with `MOCK_SUCCESS_RESULT`); in both
cases `completedAt` is stamped with the current time.  A no-op when the
job is not in the store. -/
def applyT2 (cfg : Config) (store : List Job) (jobId : String) (now : Nat) : List Job :=
  updateFirst store jobId (fun j =>
    if cfg.simulate = "fail" then
      { j with status := JobStatus.failed, error := some MOCK_FAIL_ERROR, completedAt := some now }
    else
      { j with status := JobStatus.completed, result := some MOCK_SUCCESS_RESULT,
               completedAt := some now })

/-- The delay of the first timer (source
`Math.min(2000, DELAY_MS * 0.33)`), in milliseconds. -/
def processingDelay (delayMs : Nat) : ℚ := min 2000 ((delayMs : ℚ) * 33 / 100)

end BackendTs

namespace BackendJs

/-- Default of `DELAY_MS` in the plain-HTTP variant (`src/unnamed/part_000`). -/
def DEFAULT_DELAY_MS : Nat := 6000

/-- Source `readBody` of the plain-HTTP variant. -/
def readBody : Option Json → Json
  | none => Json.obj []
  | some j => j

/-- Source `checkAuth` of the plain-HTTP variant. -/
def checkAuth (cfg : Config) (key : Option String) : Bool :=
  key == some cfg.clientKey

/-- The 401 response of the plain-HTTP variant's `checkAuth`. -/
def authFailure (cfg : Config) : Nat × Resp :=
  (401, Resp.errMsg ("Invalid or missing X-Client-Key. Expected: \"" ++ cfg.clientKey ++ "\""))

/-- The five required submission fields of the plain-HTTP variant. -/
def requiredFields : List String :=
  ["organizationUrl", "projectId", "repositoryId", "pullRequestId", "iterationId"]

/-- Source `required.filter(k => body[k] == null)` of the plain-HTTP variant;
`none` models the TypeError thrown when the body is JSON `null`. -/
def missingFields (body : Json) : Option (List String) :=
  match body with
  | Json.null => none
  | _ => some (requiredFields.filter (fun k => looseNull (getField body k)))

/-- Source `makeJob` of the plain-HTTP variant. -/
def makeJob (body : Json) (jobId : String) (now : Nat) : Job :=
  { jobId := jobId
    status := JobStatus.pending
    organizationUrl := (getField body "organizationUrl").getD Json.null
    projectId := (getField body "projectId").getD Json.null
    repositoryId := (getField body "repositoryId").getD Json.null
    pullRequestId := (getField body "pullRequestId").getD Json.null
    iterationId := (getField body "iterationId").getD Json.null
    submittedAt := now
    completedAt := none
    result := none
    error := none }

/-- Source `jobToListItem` of the plain-HTTP variant. -/
def jobToListItem (j : Job) : ListItem :=
  { jobId := j.jobId
    status := j.status
    organizationUrl := j.organizationUrl
    projectId := j.projectId
    repositoryId := j.repositoryId
    pullRequestId := j.pullRequestId
    iterationId := j.iterationId
    submittedAt := j.submittedAt
    completedAt := j.completedAt }

/-- Store lookup `jobs.get(jobId)` of the plain-HTTP variant. -/
def getJob (store : List Job) (jobId : String) : Option Job :=
  store.find? (fun j => j.jobId == jobId)

/-- Stable descending insertion of the plain-HTTP variant's sort. -/
def insertJob (a : Job) : List Job → List Job
  | [] => [a]
  | b :: l => if b.submittedAt ≤ a.submittedAt then a :: b :: l else b :: insertJob a l

/-- Source sort of the plain-HTTP variant (same comparator as the TLS one). -/
def sortedJobs : List Job → List Job
  | [] => []
  | a :: l => insertJob a (sortedJobs l)

/-- Source regex `^\/reviews\/([^/]+)$` of the plain-HTTP variant. -/
def pathJobId (p : String) : Option String :=
  if p.startsWith "/reviews/" then
    let rest := p.drop 9
    if rest ≠ "" ∧ rest.contains '/' = false then some rest else none
  else none

/-- Source `handleRequest` of the plain-HTTP variant (`src/unnamed/part_000`),
modelled exactly like `BackendTs.handleRequest` is modelled for the TLS
variant: CORS headers aside, it routes the three job operations. -/
def handleRequest (cfg : Config) (req : Req) (store : List Job) (newId : String)
    (now : Nat) : Option (Nat × Resp × List Job) :=
  if req.method = "OPTIONS" then
    some (204, Resp.noContent, store)
  else if req.method = "POST" ∧ req.path = "/reviews" then
    if checkAuth cfg req.clientKey then
      match missingFields (readBody req.body) with
      | none => none
      | some missing =>
        if missing ≠ [] then
          some (422, Resp.errMsg ("Missing required fields: " ++ String.intercalate ", " missing), store)
        else
          let job := makeJob (readBody req.body) newId now
          some (202, Resp.accepted job.jobId, store ++ [job])
    else some (authFailure cfg |>.1, authFailure cfg |>.2, store)
  else if req.method = "GET" ∧ req.path = "/reviews" then
    if checkAuth cfg req.clientKey then
      some (200, Resp.jobList ((sortedJobs store).map jobToListItem), store)
    else some (authFailure cfg |>.1, authFailure cfg |>.2, store)
  else
    match pathJobId req.path with
    | some jid =>
      if req.method = "GET" then
        if checkAuth cfg req.clientKey then
          match getJob store jid with
          | none => some (404, Resp.errMsg ("Job not found: " ++ jid), store)
          | some job => some (200, Resp.jobDetail (jobToListItem job) job.result job.error, store)
        else some (authFailure cfg |>.1, authFailure cfg |>.2, store)
      else some (404, Resp.errMsg "Not found", store)
    | none => some (404, Resp.errMsg "Not found", store)

end BackendJs

/-- A pending `setTimeout` callback: its delay in milliseconds and its
registration sequence number.  Node's timer wheel fires timers in order of
delay, ties broken by registration order. -/
structure TimerKey where
  delay : ℚ
  seq : Nat

/-- Timer `a` fires before timer `b`: smaller delay, or equal delay and
earlier registration. -/
def firesBefore (a b : TimerKey) : Prop :=
  a.delay < b.delay ∨ (a.delay = b.delay ∧ a.seq < b.seq)

/-- The T1 timer armed by `scheduleJob`: delay `min(2000, DELAY_MS * 0.33)`,
registered first. -/
def t1Timer (delayMs : Nat) : TimerKey :=
  { delay := BackendTs.processingDelay delayMs, seq := 0 }

/-- The T2 timer armed by `scheduleJob`: delay `DELAY_MS`, registered second. -/
def t2Timer (delayMs : Nat) : TimerKey :=
  { delay := (delayMs : ℚ), seq := 1 }

/-- The scheduler-visible state of the serving process: the job store plus
the sets of job ids whose T1 (resp. T2) timer has not fired yet. -/
structure SysState where
  store : List Job
  t1 : List String
  t2 : List String

/-- The initial state of the process: empty store, no pending timers. -/
def initState : SysState := { store := [], t1 := [], t2 := [] }

/-- The events that mutate the job store, with the scheduling discipline the
runtime guarantees: a successful submission (`create`) inserts a pending job
under a fresh UUID and arms both timers; a T1 timer fires while it is
pending; a T2 timer fires while it is pending and after the job's T1 timer
has already fired (justified by `firesBefore (t1Timer d) (t2Timer d)`:
the T1 delay never exceeds the T2 delay and T1 is registered first). -/
inductive Step (cfg : Config) : SysState → SysState → Prop
  | create (s : SysState) (jobId : String) (body : Json) (now : Nat)
      (fresh : BackendTs.getJob s.store jobId = none) :
      Step cfg s { store := s.store ++ [BackendTs.makeJob body jobId now],
                   t1 := s.t1 ++ [jobId], t2 := s.t2 ++ [jobId] }
  | fireT1 (s : SysState) (jobId : String) (mem : jobId ∈ s.t1) :
      Step cfg s { store := BackendTs.applyT1 s.store jobId,
                   t1 := s.t1.erase jobId, t2 := s.t2 }
  | fireT2 (s : SysState) (jobId : String) (now : Nat) (mem : jobId ∈ s.t2)
      (t1done : jobId ∉ s.t1) :
      Step cfg s { store := BackendTs.applyT2 cfg s.store jobId now,
                   t1 := s.t1, t2 := s.t2.erase jobId }

/-- The states the serving process can reach from startup. -/
inductive Reachable (cfg : Config) : SysState → Prop
  | init : Reachable cfg initState
  | step {s s' : SysState} : Reachable cfg s → Step cfg s s' → Reachable cfg s'

/-- The per-job record invariant claimed by the spec: `completedAt` is null
exactly while the status is non-terminal, `result` is present exactly on
`completed`, `error` exactly on `failed`. -/
def jobOk (j : Job) : Prop :=
  (j.completedAt = none ↔ (j.status = JobStatus.pending ∨ j.status = JobStatus.processing)) ∧
  ((∃ r, j.result = some r) ↔ j.status = JobStatus.completed) ∧
  ((∃ e, j.error = some e) ↔ j.status = JobStatus.failed)

/-- The job ids stored, in insertion order. -/
def jobIds (store : List Job) : List String :=
  store.map (fun j => j.jobId)

/-- Where a job stands relative to its two timers: T1 pending means the
job is still `pending` with all three nullable fields null; T1 fired but
T2 pending means `processing`, still all null; both fired means terminal,
with exactly the matching payload field set. -/
def jobPhase (s : SysState) (j : Job) : Prop :=
  (j.jobId ∈ s.t1 ∧ j.status = JobStatus.pending ∧
    j.result = none ∧ j.error = none ∧ j.completedAt = none) ∨
  (j.jobId ∉ s.t1 ∧ j.jobId ∈ s.t2 ∧ j.status = JobStatus.processing ∧
    j.result = none ∧ j.error = none ∧ j.completedAt = none) ∨
  (j.jobId ∉ s.t1 ∧ j.jobId ∉ s.t2 ∧
    ((j.status = JobStatus.completed ∧ (∃ r, j.result = some r) ∧ j.error = none ∧
        (∃ t, j.completedAt = some t)) ∨
     (j.status = JobStatus.failed ∧ j.result = none ∧ (∃ e, j.error = some e) ∧
        (∃ t, j.completedAt = some t))))

/-- The global invariant of the scheduler state. -/
def SchedInv (s : SysState) : Prop :=
  (jobIds s.store).Nodup ∧ s.t1.Nodup ∧ s.t2.Nodup ∧
  (∀ id, id ∈ s.t1 → id ∈ s.t2) ∧
  (∀ id, id ∈ s.t2 → id ∈ jobIds s.store) ∧
  (∀ j, j ∈ s.store → jobPhase s j)

/-- Certificate artifact file names (source `CERT_FILE`, `KEY_FILE`,
relative to the testbed directory). -/
def CERT_FILE : String := "localhost-cert.pem"

/-- The private-key artifact file name. -/
def KEY_FILE : String := "localhost-key.pem"

/-- Source `RENEW_BEFORE_DAYS`. -/
def RENEW_BEFORE_DAYS : Nat := 30

/-- The arguments `loadOrGenerateCert` passes to `selfsigned.generate`:
subject common name, key size, validity in days, signature algorithm and
the subject alternative names (type 2 = DNS, type 7 = IP). -/
structure GenArgs where
  commonName : String
  keySize : Nat
  days : Nat
  algorithm : String
  altNames : List (Nat × String)
deriving DecidableEq

/-- The concrete generation arguments of the source. -/
def SELFSIGNED_ARGS : GenArgs :=
  { commonName := "localhost"
    keySize := 2048
    days := 365
    algorithm := "sha256"
    altNames := [(2, "localhost"), (7, "127.0.0.1")] }

/-- The pair returned by `selfsigned.generate` (fields `cert` and
`private`; the latter is named `priv` here because `private` is a Lean
keyword). -/
structure Pems where
  cert : String
  priv : String

/-- A `fs.writeFileSync` call: path, content and the `mode` option. -/
structure FileWrite where
  path : String
  content : String
  mode : Nat
deriving DecidableEq

/-- Source `loadOrGenerateCert`, over an abstract file system snapshot:
`certFile`/`keyFile` are the artifact contents when the files exist
(`fs.existsSync` / `fs.readFileSync`), `parseValidTo` is the external
`X509Certificate` parse yielding the `validTo` instant in Unix
milliseconds (`none` when construction throws), `generate` is the
external `selfsigned.generate`, and `now` is `Date.now()`.  Returns the
served pair together with the file writes performed. -/
def loadOrGenerateCert (parseValidTo : String → Option Int) (generate : GenArgs → Pems)
    (certFile keyFile : Option String) (now : Int) : (String × String) × List FileWrite :=
  let regen : (String × String) × List FileWrite :=
    let pems := generate SELFSIGNED_ARGS
    ((pems.cert, pems.priv),
      [ { path := CERT_FILE, content := pems.cert, mode := 0o600 }
      , { path := KEY_FILE, content := pems.priv, mode := 0o600 } ])
  match certFile, keyFile with
  | some certPem, some keyPem =>
    match parseValidTo certPem with
    | some validTo =>
      if validTo > now + (RENEW_BEFORE_DAYS : Int) * 24 * 60 * 60 * 1000 then
        ((certPem, keyPem), [])
      else regen
    | none => regen
  | _, _ => regen

namespace BackendTs

theorem updateFirst_nil (jobId : String) (f : Job → Job) :
    updateFirst [] jobId f = [] := rfl

theorem updateFirst_cons (j : Job) (rest : List Job) (jobId : String) (f : Job → Job) :
    updateFirst (j :: rest) jobId f =
      if j.jobId = jobId then f j :: rest else j :: updateFirst rest jobId f := rfl

theorem updateFirst_length (store : List Job) (jobId : String) (f : Job → Job) :
    (updateFirst store jobId f).length = store.length := by
  induction store with
  | nil => rfl
  | cons j rest ih =>
    rw [updateFirst_cons]
    by_cases h : j.jobId = jobId
    · simp [h]
    · simp [h, ih]

theorem getJob_eq_none_iff (store : List Job) (jobId : String) :
    getJob store jobId = none ↔ ∀ j ∈ store, j.jobId ≠ jobId := by
  unfold getJob
  rw [List.find?_eq_none]
  constructor
  · intro h j hj
    have := h j hj
    simpa using this
  · intro h j hj
    simpa using h j hj

theorem getJob_nil (jobId : String) : getJob [] jobId = none := rfl

theorem getJob_cons (j : Job) (rest : List Job) (jobId : String) :
    getJob (j :: rest) jobId = if j.jobId = jobId then some j else getJob rest jobId := by
  unfold getJob
  by_cases h : j.jobId = jobId
  · simp [List.find?_cons, h]
  · simp [List.find?_cons, h]

/-- When the store has no entry for the id, the update is a no-op. -/
theorem updateFirst_not_found (store : List Job) (jobId : String) (f : Job → Job)
    (h : getJob store jobId = none) : updateFirst store jobId f = store := by
  induction store with
  | nil => rfl
  | cons j rest ih =>
    rw [getJob_cons] at h
    by_cases hj : j.jobId = jobId
    · simp [hj] at h
    · rw [updateFirst_cons, if_neg hj]
      rw [if_neg hj] at h
      rw [ih h]

/-- Looking up the updated id finds the transformed record, provided the
transformer preserves the id. -/
theorem getJob_updateFirst (store : List Job) (jobId : String) (f : Job → Job)
    (hf : ∀ j, (f j).jobId = j.jobId) :
    getJob (updateFirst store jobId f) jobId = (getJob store jobId).map f := by
  induction store with
  | nil => rfl
  | cons j rest ih =>
    rw [updateFirst_cons]
    by_cases hj : j.jobId = jobId
    · rw [if_pos hj, getJob_cons, getJob_cons]
      have : (f j).jobId = jobId := by rw [hf j, hj]
      simp [this, hj]
    · rw [if_neg hj, getJob_cons, getJob_cons, if_neg hj, if_neg hj]
      exact ih

/-- With distinct ids, updating the first match is updating every match. -/
theorem updateFirst_eq_map (store : List Job) (jobId : String) (f : Job → Job)
    (hnd : (jobIds store).Nodup) :
    updateFirst store jobId f = store.map (fun j => if j.jobId = jobId then f j else j) := by
  induction store with
  | nil => rfl
  | cons j rest ih =>
    have hcons : (j.jobId :: jobIds rest).Nodup := hnd
    have hnotmem : j.jobId ∉ jobIds rest := (List.nodup_cons.mp hcons).1
    have hnd' : (jobIds rest).Nodup := (List.nodup_cons.mp hcons).2
    rw [updateFirst_cons, List.map_cons]
    by_cases hj : j.jobId = jobId
    · rw [if_pos hj, if_pos hj]
      have hrest : ∀ a ∈ rest, (fun j' => if j'.jobId = jobId then f j' else j') a = id a := by
        intro a ha
        have : a.jobId ≠ jobId := by
          intro hc
          exact hnotmem (by rw [hj, ← hc]; exact List.mem_map_of_mem _ ha)
        simp [this]
      rw [List.map_congr_left hrest, List.map_id]
    · rw [if_neg hj, if_neg hj, ih hnd']

theorem jobIds_append (s t : List Job) : jobIds (s ++ t) = jobIds s ++ jobIds t := by
  simp [jobIds]

/-- `updateFirst` with an id-preserving transformer preserves the id list. -/
theorem jobIds_updateFirst (store : List Job) (jobId : String) (f : Job → Job)
    (hf : ∀ j, (f j).jobId = j.jobId) :
    jobIds (updateFirst store jobId f) = jobIds store := by
  induction store with
  | nil => rfl
  | cons j rest ih =>
    rw [updateFirst_cons]
    by_cases hj : j.jobId = jobId
    · simp [jobIds, hf, hj]
    · simp only [if_neg hj]
      simp [jobIds] at ih ⊢
      exact ih

/-- Two store members with the same id are the same record when ids are
distinct. -/
theorem eq_of_mem_of_nodup_ids {store : List Job} {a b : Job}
    (hnd : (jobIds store).Nodup) (ha : a ∈ store) (hb : b ∈ store)
    (hid : a.jobId = b.jobId) : a = b := by
  induction store with
  | nil => cases ha
  | cons j rest ih =>
    have hcons : (j.jobId :: jobIds rest).Nodup := hnd
    have hnd' : (jobIds rest).Nodup := (List.nodup_cons.mp hcons).2
    have hhead : j.jobId ∉ jobIds rest := (List.nodup_cons.mp hcons).1
    rcases List.mem_cons.mp ha with ha' | ha' <;> rcases List.mem_cons.mp hb with hb' | hb'
    · rw [ha', hb']
    · exfalso
      apply hhead
      rw [← ha', hid]
      exact List.mem_map_of_mem _ hb'
    · exfalso
      apply hhead
      rw [← hb', ← hid]
      exact List.mem_map_of_mem _ ha'
    · exact ih hnd' ha' hb'

theorem mem_insertJob (a x : Job) (l : List Job) :
    x ∈ insertJob a l ↔ x = a ∨ x ∈ l := by
  induction l with
  | nil => simp [insertJob]
  | cons b bs ih =>
    unfold insertJob
    by_cases h : b.submittedAt ≤ a.submittedAt
    · simp [h]
    · simp only [if_neg h, List.mem_cons, ih]
      tauto

theorem insertJob_perm (a : Job) (l : List Job) :
    List.Perm (insertJob a l) (a :: l) := by
  induction l with
  | nil => simp [insertJob]
  | cons b bs ih =>
    unfold insertJob
    by_cases h : b.submittedAt ≤ a.submittedAt
    · simp [h]
    · rw [if_neg h]
      exact (ih.cons b).trans (List.Perm.swap a b bs)

/-- The sort is a permutation of the store: the listing returns all jobs. -/
theorem sortedJobs_perm (l : List Job) : List.Perm (sortedJobs l) l := by
  induction l with
  | nil => simp [sortedJobs]
  | cons a bs ih =>
    unfold sortedJobs
    exact (insertJob_perm a (sortedJobs bs)).trans (ih.cons a)

theorem pairwise_insertJob (a : Job) (l : List Job)
    (hl : List.Pairwise (fun x y : Job => y.submittedAt ≤ x.submittedAt) l) :
    List.Pairwise (fun x y : Job => y.submittedAt ≤ x.submittedAt) (insertJob a l) := by
  induction l with
  | nil => simp [insertJob]
  | cons b bs ih =>
    rw [List.pairwise_cons] at hl
    obtain ⟨hb, hbs⟩ := hl
    unfold insertJob
    by_cases h : b.submittedAt ≤ a.submittedAt
    · rw [if_pos h, List.pairwise_cons]
      refine ⟨?_, ?_⟩
      · intro x hx
        rcases List.mem_cons.mp hx with hx' | hx'
        · rw [hx']; exact h
        · exact le_trans (hb x hx') h
      · rw [List.pairwise_cons]
        exact ⟨hb, hbs⟩
    · rw [if_neg h, List.pairwise_cons]
      refine ⟨?_, ih hbs⟩
      intro x hx
      rcases (mem_insertJob a x bs).mp hx with hx' | hx'
      · rw [hx']
        exact le_of_lt (lt_of_not_le h)
      · exact hb x hx'

/-- The sort is descending in `submittedAt`. -/
theorem sortedJobs_pairwise (l : List Job) :
    List.Pairwise (fun x y : Job => y.submittedAt ≤ x.submittedAt) (sortedJobs l) := by
  induction l with
  | nil => simp [sortedJobs]
  | cons a bs ih =>
    unfold sortedJobs
    exact pairwise_insertJob a (sortedJobs bs) ih

theorem filter_insertJob (a : Job) (l : List Job) (t : Nat)
    (hl : List.Pairwise (fun x y : Job => y.submittedAt ≤ x.submittedAt) l) :
    (insertJob a l).filter (fun j => j.submittedAt == t) =
      if a.submittedAt = t then a :: l.filter (fun j => j.submittedAt == t)
      else l.filter (fun j => j.submittedAt == t) := by
  induction l with
  | nil =>
    by_cases h : a.submittedAt = t
    · simp [insertJob, h]
    · simp [insertJob, h]
  | cons b bs ih =>
    rw [List.pairwise_cons] at hl
    obtain ⟨hb, hbs⟩ := hl
    unfold insertJob
    by_cases h : b.submittedAt ≤ a.submittedAt
    · rw [if_pos h]
      by_cases ha : a.submittedAt = t
      · simp [List.filter_cons, ha]
      · simp [List.filter_cons, ha]
    · rw [if_neg h]
      have hab : a.submittedAt < b.submittedAt := lt_of_not_le h
      by_cases ha : a.submittedAt = t
      · have hbt : (b.submittedAt == t) = false := by
          apply beq_false_of_ne
          intro hc
          rw [← ha] at hc
          exact absurd hc (ne_of_gt hab)
        rw [if_pos ha]
        rw [List.filter_cons, List.filter_cons, hbt]
        simp only [Bool.false_eq_true, if_false]
        rw [ih hbs, if_pos ha]
      · rw [if_neg ha]
        rw [List.filter_cons, List.filter_cons]
        rw [ih hbs, if_neg ha]

/-- Stability: among jobs of equal `submittedAt`, the sort preserves the
store's insertion order. -/
theorem sortedJobs_filter (l : List Job) (t : Nat) :
    (sortedJobs l).filter (fun j => j.submittedAt == t) =
      l.filter (fun j => j.submittedAt == t) := by
  induction l with
  | nil => rfl
  | cons a bs ih =>
    unfold sortedJobs
    rw [filter_insertJob a (sortedJobs bs) t (sortedJobs_pairwise bs)]
    by_cases ha : a.submittedAt = t
    · rw [if_pos ha, ih, List.filter_cons]
      simp [ha]
    · rw [if_neg ha, ih, List.filter_cons]
      simp [ha]

/-- In the sorted output, a strictly more recent job precedes a strictly
older one. -/
theorem sortedJobs_get_lt (l : List Job) (i j : Fin (sortedJobs l).length)
    (h : ((sortedJobs l).get j).submittedAt < ((sortedJobs l).get i).submittedAt) :
    (i : Nat) < (j : Nat) := by
  by_contra hij
  push_neg at hij
  rcases lt_or_eq_of_le hij with hlt | heq
  · have := (List.pairwise_iff_get.mp (sortedJobs_pairwise l)) j i hlt
    exact absurd h (not_lt_of_le this)
  · have : i = j := Fin.ext heq.symm
    rw [this] at h
    exact lt_irrefl _ h

end BackendTs

theorem mem_jobIds (store : List Job) (id : String) :
    id ∈ jobIds store ↔ ∃ j ∈ store, j.jobId = id := by
  simp [jobIds, List.mem_map]

/-- Transport of a job's phase along timer lists with the same membership
status for the job's id. -/
theorem jobPhase_congr {s s' : SysState} {j : Job}
    (h1 : j.jobId ∈ s'.t1 ↔ j.jobId ∈ s.t1) (h2 : j.jobId ∈ s'.t2 ↔ j.jobId ∈ s.t2)
    (hp : jobPhase s j) : jobPhase s' j := by
  unfold jobPhase at hp ⊢
  rw [h1, h2]
  exact hp

theorem schedInv_init : SchedInv initState := by
  refine ⟨List.nodup_nil, List.nodup_nil, List.nodup_nil, ?_, ?_, ?_⟩
  · intro id h; cases h
  · intro id h; cases h
  · intro j h; cases h

/-- Each scheduler event preserves the global invariant. -/
theorem schedInv_step {cfg : Config} {s s' : SysState}
    (h : Step cfg s s') (hinv : SchedInv s) : SchedInv s' := by
  obtain ⟨hndStore, hndT1, hndT2, hT1T2, hT2Store, hPhase⟩ := hinv
  cases h with
  | create jobId body now fresh =>
    have hfresh : ∀ j ∈ s.store, j.jobId ≠ jobId :=
      (BackendTs.getJob_eq_none_iff s.store jobId).mp fresh
    have hidNotStore : jobId ∉ jobIds s.store := by
      rw [mem_jobIds]
      rintro ⟨j, hj, hjid⟩
      exact hfresh j hj hjid
    have hidNotT2 : jobId ∉ s.t2 := fun hmem => hidNotStore (hT2Store jobId hmem)
    have hidNotT1 : jobId ∉ s.t1 := fun hmem => hidNotT2 (hT1T2 jobId hmem)
    have hjobIdsEq : jobIds (s.store ++ [BackendTs.makeJob body jobId now]) =
        jobIds s.store ++ [jobId] := by
      rw [BackendTs.jobIds_append]; rfl
    refine ⟨?_, ?_, ?_, ?_, ?_, ?_⟩
    · rw [hjobIdsEq]
      simp only [List.nodup_append, List.nodup_cons, List.not_mem_nil, not_false_iff,
        List.nodup_nil, and_true, List.disjoint_singleton]
      exact ⟨hndStore, trivial, hidNotStore⟩
    · simp only [List.nodup_append, List.nodup_cons, List.not_mem_nil, not_false_iff,
        List.nodup_nil, and_true, List.disjoint_singleton]
      exact ⟨hndT1, trivial, hidNotT1⟩
    · simp only [List.nodup_append, List.nodup_cons, List.not_mem_nil, not_false_iff,
        List.nodup_nil, and_true, List.disjoint_singleton]
      exact ⟨hndT2, trivial, hidNotT2⟩
    · intro x hx
      rcases List.mem_append.mp hx with hx' | hx'
      · exact List.mem_append.mpr (Or.inl (hT1T2 x hx'))
      · exact List.mem_append.mpr (Or.inr hx')
    · intro x hx
      rw [hjobIdsEq]
      rcases List.mem_append.mp hx with hx' | hx'
      · exact List.mem_append.mpr (Or.inl (hT2Store x hx'))
      · exact List.mem_append.mpr (Or.inr hx')
    · intro j hj
      rcases List.mem_append.mp hj with hj' | hj'
      · have hne : j.jobId ≠ jobId := hfresh j hj'
        refine jobPhase_congr ?_ ?_ (hPhase j hj')
        · simp only [List.mem_append, List.mem_singleton]
          exact or_iff_left hne
        · simp only [List.mem_append, List.mem_singleton]
          exact or_iff_left hne
      · have hj'' : j = BackendTs.makeJob body jobId now := List.mem_singleton.mp hj'
        subst hj''
        left
        refine ⟨?_, rfl, rfl, rfl, rfl⟩
        exact List.mem_append.mpr (Or.inr (List.mem_singleton.mpr rfl))
  | fireT1 jobId mem =>
    have hfpres : ∀ j : Job, ({ j with status := JobStatus.processing } : Job).jobId = j.jobId :=
      fun j => rfl
    have hids : jobIds (BackendTs.applyT1 s.store jobId) = jobIds s.store :=
      BackendTs.jobIds_updateFirst s.store jobId _ hfpres
    refine ⟨by rw [hids]; exact hndStore, hndT1.erase jobId, hndT2, ?_, ?_, ?_⟩
    · intro x hx
      exact hT1T2 x (List.mem_of_mem_erase hx)
    · intro x hx
      rw [hids]
      exact hT2Store x hx
    · intro j hj
      rw [BackendTs.applyT1, BackendTs.updateFirst_eq_map s.store jobId _ hndStore] at hj
      rcases List.mem_map.mp hj with ⟨j0, hj0, hj0eq⟩
      by_cases hid : j0.jobId = jobId
      · rw [if_pos hid] at hj0eq
        have hp0 := hPhase j0 hj0
        have hmem0 : j0.jobId ∈ s.t1 := by rw [hid]; exact mem
        rcases hp0 with ⟨_, _, hres, herr, hcomp⟩ | ⟨hnot1, _, _, _, _⟩ | ⟨hnot1, _, _⟩
        · right; left
          refine ⟨?_, ?_, ?_, ?_, ?_, ?_⟩
          · rw [← hj0eq]
            show j0.jobId ∉ (s.t1.erase jobId)
            rw [hndT1.mem_erase_iff]
            rintro ⟨hne, _⟩
            exact hne hid
          · rw [← hj0eq]
            show j0.jobId ∈ s.t2
            exact hT1T2 j0.jobId hmem0
          · rw [← hj0eq]
          · rw [← hj0eq]; exact hres
          · rw [← hj0eq]; exact herr
          · rw [← hj0eq]; exact hcomp
        · exact absurd hmem0 hnot1
        · exact absurd hmem0 hnot1
      · rw [if_neg hid] at hj0eq
        subst hj0eq
        refine jobPhase_congr ?_ ?_ (hPhase j0 hj0)
        · exact List.mem_erase_of_ne hid
        · exact Iff.rfl
  | fireT2 jobId now mem t1done =>
    have hfpres : ∀ j : Job,
        ((if cfg.simulate = "fail" then
            { j with status := JobStatus.failed, error := some MOCK_FAIL_ERROR,
                     completedAt := some now }
          else
            { j with status := JobStatus.completed, result := some MOCK_SUCCESS_RESULT,
                     completedAt := some now }) : Job).jobId = j.jobId := by
      intro j
      by_cases hsim : cfg.simulate = "fail" <;> simp [hsim]
    have hids : jobIds (BackendTs.applyT2 cfg s.store jobId now) = jobIds s.store :=
      BackendTs.jobIds_updateFirst s.store jobId _ hfpres
    refine ⟨by rw [hids]; exact hndStore, hndT1, hndT2.erase jobId, ?_, ?_, ?_⟩
    · intro x hx
      have hxne : x ≠ jobId := fun hc => t1done (hc ▸ hx)
      exact (List.mem_erase_of_ne hxne).mpr (hT1T2 x hx)
    · intro x hx
      rw [hids]
      exact hT2Store x (List.mem_of_mem_erase hx)
    · intro j hj
      rw [BackendTs.applyT2, BackendTs.updateFirst_eq_map s.store jobId _ hndStore] at hj
      rcases List.mem_map.mp hj with ⟨j0, hj0, hj0eq⟩
      by_cases hid : j0.jobId = jobId
      · rw [if_pos hid] at hj0eq
        have hp0 := hPhase j0 hj0
        have hmem2 : j0.jobId ∈ s.t2 := by rw [hid]; exact mem
        have hnot1 : j0.jobId ∉ s.t1 := by rw [hid]; exact t1done
        rcases hp0 with ⟨h1, _, _, _, _⟩ | ⟨_, _, _, hres, herr, _⟩ | ⟨_, hnot2, _⟩
        · exact absurd h1 hnot1
        · right; right
          have hjid : j.jobId = j0.jobId := by rw [← hj0eq]; exact hfpres j0
          refine ⟨?_, ?_, ?_⟩
          · rw [hjid]; exact hnot1
          · rw [hjid]
            show j0.jobId ∉ s.t2.erase jobId
            rw [hndT2.mem_erase_iff]
            rintro ⟨hne, _⟩
            exact hne hid
          · by_cases hsim : cfg.simulate = "fail"
            · right
              rw [← hj0eq, if_pos hsim]
              exact ⟨rfl, hres, ⟨MOCK_FAIL_ERROR, rfl⟩, ⟨now, rfl⟩⟩
            · left
              rw [← hj0eq, if_neg hsim]
              exact ⟨rfl, ⟨MOCK_SUCCESS_RESULT, rfl⟩, herr, ⟨now, rfl⟩⟩
        · exact absurd hmem2 hnot2
      · rw [if_neg hid] at hj0eq
        subst hj0eq
        refine jobPhase_congr ?_ ?_ (hPhase j0 hj0)
        · exact Iff.rfl
        · exact List.mem_erase_of_ne hid

/-- Every reachable state satisfies the global invariant. -/
theorem schedInv_reachable {cfg : Config} {s : SysState}
    (h : Reachable cfg s) : SchedInv s := by
  induction h with
  | init => exact schedInv_init
  | step _ hstep ih => exact schedInv_step hstep ih

/-- A concrete well-formed submission body, from the spec's test scenario. -/
def demoBody : Json :=
  Json.obj
    [ ("organizationUrl", Json.str "https://dev.azure.com/acme/")
    , ("projectId", Json.str "p1")
    , ("repositoryId", Json.str "r1")
    , ("pullRequestId", Json.num 7)
    , ("iterationId", Json.num 1) ]

/-- The job created from `demoBody` at time 0 under id `job-a`. -/
def demoPending : Job :=
  { jobId := "job-a"
    status := JobStatus.pending
    organizationUrl := Json.str "https://dev.azure.com/acme/"
    projectId := Json.str "p1"
    repositoryId := Json.str "r1"
    pullRequestId := Json.num 7
    iterationId := Json.num 1
    submittedAt := 0
    completedAt := none
    result := none
    error := none }

/-- The same job after its T1 timer fired. -/
def demoProcessing : Job := { demoPending with status := JobStatus.processing }

/-- The same job after its T2 timer fired at time 6000 (success mode). -/
def demoCompleted : Job :=
  { demoProcessing with status := JobStatus.completed, result := some MOCK_SUCCESS_RESULT,
                        completedAt := some 6000 }

/-- State after the submission. -/
def demoState1 : SysState := { store := [demoPending], t1 := ["job-a"], t2 := ["job-a"] }

/-- State after T1 fired. -/
def demoState2 : SysState := { store := [demoProcessing], t1 := [], t2 := ["job-a"] }

/-- State after T2 fired. -/
def demoState3 : SysState := { store := [demoCompleted], t1 := [], t2 := [] }

theorem demo_step1 : Step BackendTs.defaultConfig initState demoState1 :=
  Step.create initState "job-a" demoBody 0 rfl

theorem demo_reach1 : Reachable BackendTs.defaultConfig demoState1 :=
  Reachable.step Reachable.init demo_step1

theorem demo_step2 : Step BackendTs.defaultConfig demoState1 demoState2 :=
  Step.fireT1 demoState1 "job-a" (by decide)

theorem demo_reach2 : Reachable BackendTs.defaultConfig demoState2 :=
  Reachable.step demo_reach1 demo_step2

theorem demo_step3 : Step BackendTs.defaultConfig demoState2 demoState3 :=
  Step.fireT2 demoState2 "job-a" 6000 (by decide) (by decide)

theorem demo_reach3 : Reachable BackendTs.defaultConfig demoState3 :=
  Reachable.step demo_reach2 demo_step3

/-- C1: for every job record in the store at any reachable point of
execution, `completedAt` is null exactly while the status is `pending` or
`processing`, `result` is non-null exactly when the status is `completed`,
and `error` is non-null exactly when the status is `failed`; in particular
both payload fields are null while the status is non-terminal and exactly
one of them is non-null once it is terminal. -/
theorem c1_job_record_invariant {cfg : Config} {s : SysState}
    (h : Reachable cfg s) : ∀ j ∈ s.store, jobOk j := by
  intro j hj
  have hp := (schedInv_reachable h).2.2.2.2.2 j hj
  unfold jobOk
  rcases hp with ⟨_, hst, hres, herr, hcomp⟩ | ⟨_, _, hst, hres, herr, hcomp⟩ |
    ⟨_, _, hterm⟩
  · refine ⟨?_, ?_, ?_⟩ <;> simp [hst, hres, herr, hcomp]
  · refine ⟨?_, ?_, ?_⟩ <;> simp [hst, hres, herr, hcomp]
  · rcases hterm with ⟨hst, ⟨r, hres⟩, herr, ⟨t, hcomp⟩⟩ | ⟨hst, hres, ⟨e, herr⟩, ⟨t, hcomp⟩⟩
    · refine ⟨?_, ?_, ?_⟩ <;> simp [hst, hres, herr, hcomp]
    · refine ⟨?_, ?_, ?_⟩ <;> simp [hst, hres, herr, hcomp]

/-- Witness for C1 at a concrete reachable state (a completed job). -/
theorem c1_witness : jobOk demoCompleted :=
  c1_job_record_invariant demo_reach3 demoCompleted (by simp [demoState3])

/-- C2: a job is created `pending`; along any reachable step a stored job's
status either stays put, or moves `pending → processing` (the T1 event), or
moves `processing → completed|failed` (the T2 event) — so no transition
leaves a terminal state; and the T1 timer fires before the T2 timer for
every configured total delay (at delay 0 both timers carry delay 0 and T1
wins by registration order). -/
theorem c2_status_sequence :
    (∀ (body : Json) (jobId : String) (now : Nat),
        (BackendTs.makeJob body jobId now).status = JobStatus.pending) ∧
    (∀ (cfg : Config) (s s' : SysState), Reachable cfg s → Step cfg s s' →
      ∀ j j', j ∈ s.store → j' ∈ s'.store → j'.jobId = j.jobId →
        (j'.status = j.status ∨
         (j.status = JobStatus.pending ∧ j'.status = JobStatus.processing) ∨
         (j.status = JobStatus.processing ∧
           (j'.status = JobStatus.completed ∨ j'.status = JobStatus.failed)))) ∧
    (∀ delayMs : Nat, firesBefore (t1Timer delayMs) (t2Timer delayMs)) := by
  refine ⟨fun _ _ _ => rfl, ?_, ?_⟩
  · intro cfg s s' hre hstep j j' hj hj' hid
    obtain ⟨hndStore, hndT1, hndT2, hT1T2, hT2Store, hPhase⟩ := schedInv_reachable hre
    cases hstep with
    | create jobId body now fresh =>
      rcases List.mem_append.mp hj' with hj'' | hj''
      · left
        rw [BackendTs.eq_of_mem_of_nodup_ids hndStore hj'' hj hid]
      · exfalso
        have hjid' : j'.jobId = jobId := by
          rw [List.mem_singleton.mp hj'']
          exact rfl
        exact (BackendTs.getJob_eq_none_iff s.store jobId).mp fresh j hj (by rw [← hid, hjid'])
    | fireT1 jobId mem =>
      rw [BackendTs.applyT1, BackendTs.updateFirst_eq_map s.store jobId _ hndStore] at hj'
      rcases List.mem_map.mp hj' with ⟨j0, hj0, hj0eq⟩
      by_cases hidj : j0.jobId = jobId
      · rw [if_pos hidj] at hj0eq
        have hj0j : j0 = j := by
          apply BackendTs.eq_of_mem_of_nodup_ids hndStore hj0 hj
          rw [← hid, ← hj0eq]
        subst hj0j
        have hmem0 : j0.jobId ∈ s.t1 := by rw [hidj]; exact mem
        rcases hPhase j0 hj0 with ⟨_, hst, _, _, _⟩ | ⟨hnot1, _, _⟩ | ⟨hnot1, _, _⟩
        · right; left
          exact ⟨hst, by rw [← hj0eq]⟩
        · exact absurd hmem0 hnot1
        · exact absurd hmem0 hnot1
      · rw [if_neg hidj] at hj0eq
        left
        have hj0j : j0 = j :=
          BackendTs.eq_of_mem_of_nodup_ids hndStore hj0 hj (by rw [hj0eq, hid])
        rw [← hj0eq, hj0j]
    | fireT2 jobId now mem t1done =>
      rw [BackendTs.applyT2, BackendTs.updateFirst_eq_map s.store jobId _ hndStore] at hj'
      rcases List.mem_map.mp hj' with ⟨j0, hj0, hj0eq⟩
      by_cases hidj : j0.jobId = jobId
      · rw [if_pos hidj] at hj0eq
        have hj0j : j0 = j := by
          apply BackendTs.eq_of_mem_of_nodup_ids hndStore hj0 hj
          rw [← hid, ← hj0eq]
          by_cases hsim : cfg.simulate = "fail" <;> simp [hsim]
        subst hj0j
        have hmem2 : j0.jobId ∈ s.t2 := by rw [hidj]; exact mem
        have hnot1 : j0.jobId ∉ s.t1 := by rw [hidj]; exact t1done
        rcases hPhase j0 hj0 with ⟨h1, _, _⟩ | ⟨_, _, hst, _, _, _⟩ | ⟨_, hnot2, _⟩
        · exact absurd h1 hnot1
        · right; right
          refine ⟨hst, ?_⟩
          by_cases hsim : cfg.simulate = "fail"
          · right; rw [← hj0eq, if_pos hsim]
          · left; rw [← hj0eq, if_neg hsim]
        · exact absurd hmem2 hnot2
      · rw [if_neg hidj] at hj0eq
        left
        have hj0j : j0 = j :=
          BackendTs.eq_of_mem_of_nodup_ids hndStore hj0 hj (by rw [hj0eq, hid])
        rw [← hj0eq, hj0j]
  · intro delayMs
    unfold firesBefore t1Timer t2Timer BackendTs.processingDelay
    by_cases hd : delayMs = 0
    · subst hd
      right
      constructor
      · norm_num
      · norm_num
    · left
      have hd0 : (0 : ℚ) < (delayMs : ℚ) := by
        exact_mod_cast Nat.pos_of_ne_zero hd
      have hlt : (delayMs : ℚ) * 33 / 100 < (delayMs : ℚ) := by nlinarith
      exact lt_of_le_of_lt (min_le_right _ _) hlt

/-- Witness for C2: the concrete T1 event on the demo job is exactly the
`pending → processing` edge. -/
theorem c2_witness :
    demoProcessing.status = demoPending.status ∨
    (demoPending.status = JobStatus.pending ∧ demoProcessing.status = JobStatus.processing) ∨
    (demoPending.status = JobStatus.processing ∧
      (demoProcessing.status = JobStatus.completed ∨ demoProcessing.status = JobStatus.failed)) :=
  c2_status_sequence.2.1 BackendTs.defaultConfig demoState1 demoState2 demo_reach1 demo_step2
    demoPending demoProcessing (by simp [demoState1]) (by simp [demoState2]) rfl

/-- The write-once fields of a job record: identity, the five context
fields and the submission timestamp. -/
def sameImmutable (j j' : Job) : Prop :=
  j'.jobId = j.jobId ∧ j'.organizationUrl = j.organizationUrl ∧
  j'.projectId = j.projectId ∧ j'.repositoryId = j.repositoryId ∧
  j'.pullRequestId = j.pullRequestId ∧ j'.iterationId = j.iterationId ∧
  j'.submittedAt = j.submittedAt

theorem sameImmutable_refl (j : Job) : sameImmutable j j :=
  ⟨rfl, rfl, rfl, rfl, rfl, rfl, rfl⟩

theorem get_congr (l l' : List Job) (h : l = l') (i : Nat) (hi : i < l.length)
    (hi' : i < l'.length) : l.get ⟨i, hi⟩ = l'.get ⟨i, hi'⟩ := by
  subst h
  rfl

theorem updateFirst_preserves (store : List Job) (jobId : String) (f : Job → Job)
    (hf : ∀ j, sameImmutable j (f j)) :
    ∀ (i : Nat) (hi : i < store.length)
      (hi' : i < (BackendTs.updateFirst store jobId f).length),
      sameImmutable (store.get ⟨i, hi⟩) ((BackendTs.updateFirst store jobId f).get ⟨i, hi'⟩) := by
  induction store with
  | nil =>
    intro i hi _
    exact absurd hi (Nat.not_lt_zero i)
  | cons j rest ih =>
    intro i hi hi'
    by_cases hc : j.jobId = jobId
    · have heq : BackendTs.updateFirst (j :: rest) jobId f = f j :: rest := by
        rw [BackendTs.updateFirst_cons, if_pos hc]
      have hi2 : i < (f j :: rest).length := heq ▸ hi'
      rw [get_congr _ _ heq i hi' hi2]
      cases i with
      | zero => exact hf j
      | succ n => exact sameImmutable_refl _
    · have heq : BackendTs.updateFirst (j :: rest) jobId f =
          j :: BackendTs.updateFirst rest jobId f := by
        rw [BackendTs.updateFirst_cons, if_neg hc]
      have hi2 : i < (j :: BackendTs.updateFirst rest jobId f).length := heq ▸ hi'
      rw [get_congr _ _ heq i hi' hi2]
      cases i with
      | zero => exact sameImmutable_refl _
      | succ n => exact ih n (Nat.lt_of_succ_lt_succ hi) (Nat.lt_of_succ_lt_succ hi2)

/-- C8: the scheduler's two transitions mutate only `status`, `completedAt`,
`result` and `error` — identity, `submittedAt` and the five context fields
of every stored job survive every scheduler event unchanged, at the same
position, and no event shrinks the store; and every handled request leaves
the prior store as a prefix of the resulting store (reads leave it
untouched, a successful submit only appends), so no operation ever removes
a job. -/
theorem c8_frame :
    (∀ (cfg : Config) (s s' : SysState), Step cfg s s' →
        s.store.length ≤ s'.store.length ∧
        ∀ (i : Nat) (hi : i < s.store.length) (hi' : i < s'.store.length),
          sameImmutable (s.store.get ⟨i, hi⟩) (s'.store.get ⟨i, hi'⟩)) ∧
    (∀ (cfg : Config) (req : Req) (store : List Job) (newId : String) (now : Nat)
        (code : Nat) (body : Resp) (store' : List Job),
        BackendTs.handleRequest cfg req store newId now = some (code, body, store') →
        ∃ tail, store' = store ++ tail) := by
  constructor
  · intro cfg s s' hstep
    cases hstep with
    | create jobId body now fresh =>
      constructor
      · show s.store.length ≤ (s.store ++ [BackendTs.makeJob body jobId now]).length
        rw [List.length_append]
        exact Nat.le_add_right _ _
      · intro i hi hi'
        have hget : (s.store ++ [BackendTs.makeJob body jobId now]).get ⟨i, hi'⟩ =
            s.store.get ⟨i, hi⟩ := by
          rw [List.get_eq_getElem, List.get_eq_getElem]
          exact List.getElem_append_left hi
        rw [hget]
        exact sameImmutable_refl _
    | fireT1 jobId mem =>
      constructor
      · show s.store.length ≤ (BackendTs.applyT1 s.store jobId).length
        rw [BackendTs.applyT1, BackendTs.updateFirst_length]
      · intro i hi hi'
        exact updateFirst_preserves s.store jobId
          (fun j => { j with status := JobStatus.processing })
          (fun j => ⟨rfl, rfl, rfl, rfl, rfl, rfl, rfl⟩) i hi hi'
    | fireT2 jobId now mem t1done =>
      constructor
      · show s.store.length ≤ (BackendTs.applyT2 cfg s.store jobId now).length
        rw [BackendTs.applyT2, BackendTs.updateFirst_length]
      · intro i hi hi'
        refine updateFirst_preserves s.store jobId _ ?_ i hi hi'
        intro j
        by_cases hsim : cfg.simulate = "fail" <;> simp [sameImmutable, hsim]
  · intro cfg req store newId now code body store' h
    unfold BackendTs.handleRequest at h
    split at h
    · simp only [Option.some.injEq, Prod.mk.injEq] at h
      exact ⟨[], by rw [← h.2.2]; simp⟩
    · split at h
      · split at h
        · split at h
          · exact absurd h (by simp)
          · split at h
            · simp only [Option.some.injEq, Prod.mk.injEq] at h
              exact ⟨[], by rw [← h.2.2]; simp⟩
            · simp only [Option.some.injEq, Prod.mk.injEq] at h
              exact ⟨[BackendTs.makeJob (BackendTs.readBody req.body) newId now], h.2.2.symm⟩
        · simp only [Option.some.injEq, Prod.mk.injEq] at h
          exact ⟨[], by rw [← h.2.2]; simp⟩
      · split at h
        · split at h
          · simp only [Option.some.injEq, Prod.mk.injEq] at h
            exact ⟨[], by rw [← h.2.2]; simp⟩
          · simp only [Option.some.injEq, Prod.mk.injEq] at h
            exact ⟨[], by rw [← h.2.2]; simp⟩
        · split at h
          · split at h
            · split at h
              · split at h
                · simp only [Option.some.injEq, Prod.mk.injEq] at h
                  exact ⟨[], by rw [← h.2.2]; simp⟩
                · simp only [Option.some.injEq, Prod.mk.injEq] at h
                  exact ⟨[], by rw [← h.2.2]; simp⟩
              · simp only [Option.some.injEq, Prod.mk.injEq] at h
                exact ⟨[], by rw [← h.2.2]; simp⟩
            · simp only [Option.some.injEq, Prod.mk.injEq] at h
              exact ⟨[], by rw [← h.2.2]; simp⟩
          · simp only [Option.some.injEq, Prod.mk.injEq] at h
            exact ⟨[], by rw [← h.2.2]; simp⟩

/-- Witness for C8 at the concrete T1 step of the demo trace. -/
theorem c8_witness : demoState1.store.length ≤ demoState2.store.length :=
  (c8_frame.1 BackendTs.defaultConfig demoState1 demoState2 demo_step2).1

/-- C6: the first scheduled transition carries delay
`min(2000, totalDelay * 0.33)` and sets the job's status to `processing`
(a no-op when the job is not in the store); the second carries delay
`totalDelay` (default 6000 when `DELAY_MS` is unset) and resolves the job
to `failed` with the explanatory `MOCK_FAIL_ERROR` exactly when the
simulation mode is `fail`, and otherwise to `completed` with the fixed
`MOCK_SUCCESS_RESULT`; in both terminal cases `completedAt` is stamped
with the current time. -/
theorem c6_timer_transitions :
    (∀ delayMs : Nat, (t1Timer delayMs).delay = min 2000 ((delayMs : ℚ) * 33 / 100)) ∧
    (∀ delayMs : Nat, (t2Timer delayMs).delay = (delayMs : ℚ)) ∧
    BackendTs.defaultConfig.delayMs = 6000 ∧
    (∀ (store : List Job) (jobId : String), BackendTs.getJob store jobId = none →
        BackendTs.applyT1 store jobId = store) ∧
    (∀ (store : List Job) (jobId : String) (j : Job),
        BackendTs.getJob store jobId = some j →
        BackendTs.getJob (BackendTs.applyT1 store jobId) jobId =
          some { j with status := JobStatus.processing }) ∧
    (∀ (cfg : Config) (store : List Job) (jobId : String) (now : Nat) (j : Job),
        BackendTs.getJob store jobId = some j → cfg.simulate = "fail" →
        BackendTs.getJob (BackendTs.applyT2 cfg store jobId now) jobId =
          some { j with status := JobStatus.failed, error := some MOCK_FAIL_ERROR,
                        completedAt := some now }) ∧
    (∀ (cfg : Config) (store : List Job) (jobId : String) (now : Nat) (j : Job),
        BackendTs.getJob store jobId = some j → cfg.simulate ≠ "fail" →
        BackendTs.getJob (BackendTs.applyT2 cfg store jobId now) jobId =
          some { j with status := JobStatus.completed, result := some MOCK_SUCCESS_RESULT,
                        completedAt := some now }) ∧
    MOCK_FAIL_ERROR ≠ "" := by
  refine ⟨fun _ => rfl, fun _ => rfl, rfl, ?_, ?_, ?_, ?_, by decide⟩
  · intro store jobId h
    exact BackendTs.updateFirst_not_found store jobId _ h
  · intro store jobId j h
    rw [BackendTs.applyT1,
      BackendTs.getJob_updateFirst store jobId
        (fun j => { j with status := JobStatus.processing }) (fun j => rfl), h]
    rfl
  · intro cfg store jobId now j h hsim
    have hf : ∀ j0 : Job,
        ((if cfg.simulate = "fail" then
            { j0 with status := JobStatus.failed, error := some MOCK_FAIL_ERROR,
                      completedAt := some now }
          else
            { j0 with status := JobStatus.completed, result := some MOCK_SUCCESS_RESULT,
                      completedAt := some now }) : Job).jobId = j0.jobId := by
      intro j0
      rw [if_pos hsim]
    rw [BackendTs.applyT2, BackendTs.getJob_updateFirst store jobId _ hf, h]
    simp [hsim]
  · intro cfg store jobId now j h hsim
    have hf : ∀ j0 : Job,
        ((if cfg.simulate = "fail" then
            { j0 with status := JobStatus.failed, error := some MOCK_FAIL_ERROR,
                      completedAt := some now }
          else
            { j0 with status := JobStatus.completed, result := some MOCK_SUCCESS_RESULT,
                      completedAt := some now }) : Job).jobId = j0.jobId := by
      intro j0
      rw [if_neg hsim]
    rw [BackendTs.applyT2, BackendTs.getJob_updateFirst store jobId _ hf, h]
    simp [hsim]

/-- Witness for C6: the T1 no-op on an empty store and the concrete
`pending → processing` update on the demo store. -/
theorem c6_witness :
    BackendTs.applyT1 [] "job-a" = [] ∧
    BackendTs.getJob (BackendTs.applyT1 [demoPending] "job-a") "job-a" = some demoProcessing :=
  ⟨c6_timer_transitions.2.2.2.1 [] "job-a" rfl,
   c6_timer_transitions.2.2.2.2.1 [demoPending] "job-a" demoPending rfl⟩

/-- A request targets one of the three job operations. -/
def isJobOp (req : Req) : Prop :=
  (req.method = "POST" ∧ req.path = "/reviews") ∨
  (req.method = "GET" ∧ req.path = "/reviews") ∨
  (req.method = "GET" ∧ ∃ jid, BackendTs.pathJobId req.path = some jid)

/-- C4: every request to one of the three job operations whose
`X-Client-Key` header is not exactly the configured key (absent or
mismatching) is answered 401 with a message stating the expected key
value, and the job store is returned completely unchanged — in
particular no job is created by an unauthenticated submit. -/
theorem c4_auth_rejection (cfg : Config) (req : Req) (store : List Job) (newId : String)
    (now : Nat) (hop : isJobOp req) (hkey : req.clientKey ≠ some cfg.clientKey) :
    BackendTs.handleRequest cfg req store newId now =
      some (401,
        Resp.errMsg ("Invalid or missing X-Client-Key. Expected: \"" ++ cfg.clientKey ++ "\""),
        store) := by
  have hauth : BackendTs.checkAuth cfg req.clientKey = false := by
    rw [BackendTs.checkAuth, beq_eq_false_iff_ne]
    exact hkey
  rcases hop with ⟨hm, hp⟩ | ⟨hm, hp⟩ | ⟨hm, ⟨jid, hjid⟩⟩
  · simp [BackendTs.handleRequest, hm, hp, hauth, BackendTs.authFailure]
  · simp [BackendTs.handleRequest, hm, hp, hauth, BackendTs.authFailure]
  · have hpath : req.path ≠ "/reviews" := by
      intro hc
      rw [hc] at hjid
      have hnone : BackendTs.pathJobId "/reviews" = none := by decide
      rw [hnone] at hjid
      cases hjid
    simp [BackendTs.handleRequest, hm, hpath, hjid, hauth, BackendTs.authFailure]

/-- Witness for C4: a keyless submit against the default configuration. -/
theorem c4_witness :
    BackendTs.handleRequest BackendTs.defaultConfig
        { method := "POST", path := "/reviews", clientKey := none, body := some demoBody }
        [] "job-a" 0 =
      some (401,
        Resp.errMsg ("Invalid or missing X-Client-Key. Expected: \"" ++
          BackendTs.defaultConfig.clientKey ++ "\""),
        []) :=
  c4_auth_rejection BackendTs.defaultConfig
    { method := "POST", path := "/reviews", clientKey := none, body := some demoBody }
    [] "job-a" 0 (Or.inl ⟨rfl, rfl⟩) (by simp)

/-- C5: an authenticated `GET /reviews` answers 200 with the whole store
(the sorted listing is a permutation of it) mapped to summaries, ordered
by `submittedAt` descending — whenever entry `i` is strictly more recent
than entry `j`, it comes first — with ties left in store insertion order
(the sort does not reorder jobs of equal `submittedAt`). -/
theorem c5_list_ordering (cfg : Config) (store : List Job) (newId : String) (now : Nat) :
    BackendTs.handleRequest cfg
        { method := "GET", path := "/reviews", clientKey := some cfg.clientKey, body := none }
        store newId now =
      some (200, Resp.jobList ((BackendTs.sortedJobs store).map BackendTs.jobToListItem), store) ∧
    List.Perm (BackendTs.sortedJobs store) store ∧
    (∀ i j : Fin (BackendTs.sortedJobs store).length,
        ((BackendTs.sortedJobs store).get j).submittedAt <
          ((BackendTs.sortedJobs store).get i).submittedAt →
        (i : Nat) < (j : Nat)) ∧
    (∀ t : Nat, (BackendTs.sortedJobs store).filter (fun jb => jb.submittedAt == t) =
        store.filter (fun jb => jb.submittedAt == t)) := by
  refine ⟨?_, BackendTs.sortedJobs_perm store, ?_, fun t => BackendTs.sortedJobs_filter store t⟩
  · simp [BackendTs.handleRequest, BackendTs.checkAuth]
  · intro i j h
    exact BackendTs.sortedJobs_get_lt store i j h

/-- The two demo-store jobs used to exercise the listing order. -/
def wJobOld : Job := { demoPending with jobId := "job-old", submittedAt := 1 }

/-- A strictly more recent job inserted after `wJobOld`. -/
def wJobNew : Job := { demoPending with jobId := "job-new", submittedAt := 5 }

/-- Witness for C5: on the concrete two-job store the listing equation
holds and the strictly-more-recent job indeed precedes the older one. -/
theorem c5_witness :
    BackendTs.handleRequest BackendTs.defaultConfig
        { method := "GET", path := "/reviews",
          clientKey := some BackendTs.defaultConfig.clientKey, body := none }
        [wJobOld, wJobNew] "j" 9 =
      some (200,
        Resp.jobList ((BackendTs.sortedJobs [wJobOld, wJobNew]).map BackendTs.jobToListItem),
        [wJobOld, wJobNew]) ∧
    (0 : Nat) < 1 :=
  ⟨(c5_list_ordering BackendTs.defaultConfig [wJobOld, wJobNew] "j" 9).1,
   (c5_list_ordering BackendTs.defaultConfig [wJobOld, wJobNew] "j" 9).2.2.1
     ⟨0, by decide⟩ ⟨1, by decide⟩ (by decide)⟩

/-- C7: at startup of the TLS-capable variant the existing artifacts are
reused exactly when both files exist, the certificate parses and its
`validTo` exceeds now plus the 30-day renewal threshold (reuse serves the
file contents and writes nothing); in every other case a fresh self-signed
pair is produced by `selfsigned.generate` with a 2048-bit key, SHA-256
signing, 365-day validity and subject alternative names covering
`localhost` (DNS) and `127.0.0.1` (IP), and both artifacts are written
with owner-only 0600 (= 384) permissions. -/
theorem c7_certificate_lifecycle (parseValidTo : String → Option Int)
    (generate : GenArgs → Pems) (certFile keyFile : Option String) (now : Int) :
    ((loadOrGenerateCert parseValidTo generate certFile keyFile now).2 = [] ↔
      ∃ certPem keyPem validTo, certFile = some certPem ∧ keyFile = some keyPem ∧
        parseValidTo certPem = some validTo ∧
        validTo > now + (RENEW_BEFORE_DAYS : Int) * 24 * 60 * 60 * 1000) ∧
    ((loadOrGenerateCert parseValidTo generate certFile keyFile now).2 = [] →
      certFile = some (loadOrGenerateCert parseValidTo generate certFile keyFile now).1.1 ∧
      keyFile = some (loadOrGenerateCert parseValidTo generate certFile keyFile now).1.2) ∧
    ((loadOrGenerateCert parseValidTo generate certFile keyFile now).2 ≠ [] →
      loadOrGenerateCert parseValidTo generate certFile keyFile now =
        (((generate SELFSIGNED_ARGS).cert, (generate SELFSIGNED_ARGS).priv),
         [ { path := CERT_FILE, content := (generate SELFSIGNED_ARGS).cert, mode := 384 }
         , { path := KEY_FILE, content := (generate SELFSIGNED_ARGS).priv, mode := 384 } ])) ∧
    SELFSIGNED_ARGS.keySize = 2048 ∧ SELFSIGNED_ARGS.days = 365 ∧
    SELFSIGNED_ARGS.algorithm = "sha256" ∧
    (2, "localhost") ∈ SELFSIGNED_ARGS.altNames ∧
    (7, "127.0.0.1") ∈ SELFSIGNED_ARGS.altNames := by
  rcases certFile with _ | certPem <;> rcases keyFile with _ | keyPem
  · refine ⟨by simp [loadOrGenerateCert], by simp [loadOrGenerateCert], fun _ => rfl,
      rfl, rfl, rfl, by decide, by decide⟩
  · refine ⟨by simp [loadOrGenerateCert], by simp [loadOrGenerateCert], fun _ => rfl,
      rfl, rfl, rfl, by decide, by decide⟩
  · refine ⟨by simp [loadOrGenerateCert], by simp [loadOrGenerateCert], fun _ => rfl,
      rfl, rfl, rfl, by decide, by decide⟩
  · rcases hparse : parseValidTo certPem with _ | validTo
    · have hres : loadOrGenerateCert parseValidTo generate (some certPem) (some keyPem) now =
          (((generate SELFSIGNED_ARGS).cert, (generate SELFSIGNED_ARGS).priv),
           [ { path := CERT_FILE, content := (generate SELFSIGNED_ARGS).cert, mode := 384 }
           , { path := KEY_FILE, content := (generate SELFSIGNED_ARGS).priv, mode := 384 } ]) := by
        simp [loadOrGenerateCert, hparse]
      refine ⟨?_, ?_, fun _ => hres, rfl, rfl, rfl, by decide, by decide⟩
      · rw [hres]
        constructor
        · intro h
          exact (List.cons_ne_nil _ _ h).elim
        · rintro ⟨c, k, v, hc, hk, hpv, hlv⟩
          rw [Option.some_inj] at hc
          subst hc
          rw [hparse] at hpv
          exact Option.noConfusion hpv
      · intro h
        rw [hres] at h
        exact (List.cons_ne_nil _ _ h).elim
    · by_cases hval : validTo > now + (RENEW_BEFORE_DAYS : Int) * 24 * 60 * 60 * 1000
      · have hres : loadOrGenerateCert parseValidTo generate (some certPem) (some keyPem) now =
            ((certPem, keyPem), []) := by
          simp [loadOrGenerateCert, hparse, hval]
        refine ⟨?_, ?_, ?_, rfl, rfl, rfl, by decide, by decide⟩
        · rw [hres]
          constructor
          · intro _
            exact ⟨certPem, keyPem, validTo, rfl, rfl, hparse, hval⟩
          · intro _
            rfl
        · intro _
          rw [hres]
          exact ⟨rfl, rfl⟩
        · intro h
          rw [hres] at h
          exact absurd rfl h
      · have hres : loadOrGenerateCert parseValidTo generate (some certPem) (some keyPem) now =
            (((generate SELFSIGNED_ARGS).cert, (generate SELFSIGNED_ARGS).priv),
             [ { path := CERT_FILE, content := (generate SELFSIGNED_ARGS).cert, mode := 384 }
             , { path := KEY_FILE, content := (generate SELFSIGNED_ARGS).priv, mode := 384 } ]) := by
          simp [loadOrGenerateCert, hparse, hval]
        refine ⟨?_, ?_, fun _ => hres, rfl, rfl, rfl, by decide, by decide⟩
        · rw [hres]
          constructor
          · intro h
            exact (List.cons_ne_nil _ _ h).elim
          · rintro ⟨c, k, v, hc, hk, hpv, hlv⟩
            rw [Option.some_inj] at hc
            subst hc
            rw [hparse] at hpv
            rw [Option.some_inj] at hpv
            subst hpv
            exact (hval hlv).elim
        · intro h
          rw [hres] at h
          exact (List.cons_ne_nil _ _ h).elim

/-- Witness for C7: a parse oracle far in the future makes the concrete
artifacts be reused without writes. -/
theorem c7_witness :
    (loadOrGenerateCert (fun _ => some 10000000000000) (fun _ => { cert := "C", priv := "K" })
        (some "certpem") (some "keypem") 0).2 = [] :=
  (c7_certificate_lifecycle (fun _ => some 10000000000000)
      (fun _ => { cert := "C", priv := "K" }) (some "certpem") (some "keypem") 0).1.mpr
    ⟨"certpem", "keypem", 10000000000000, rfl, rfl, rfl, by norm_num [RENEW_BEFORE_DAYS]⟩

theorem insertJob_eq : BackendJs.insertJob = BackendTs.insertJob := by
  funext a l
  induction l with
  | nil => rfl
  | cons b bs ih => simp only [BackendJs.insertJob, BackendTs.insertJob, ih]

theorem sortedJobs_eq : BackendJs.sortedJobs = BackendTs.sortedJobs := by
  funext l
  induction l with
  | nil => rfl
  | cons a bs ih => simp only [BackendJs.sortedJobs, BackendTs.sortedJobs, ih, insertJob_eq]

theorem checkAuth_eq : BackendJs.checkAuth = BackendTs.checkAuth := rfl

theorem authFailure_eq : BackendJs.authFailure = BackendTs.authFailure := rfl

theorem missingFields_eq : BackendJs.missingFields = BackendTs.missingFields := rfl

theorem readBody_eq : BackendJs.readBody = BackendTs.readBody := rfl

theorem makeJob_eq : BackendJs.makeJob = BackendTs.makeJob := rfl

theorem jobToListItem_eq : BackendJs.jobToListItem = BackendTs.jobToListItem := rfl

theorem getJob_eq : BackendJs.getJob = BackendTs.getJob := rfl

theorem pathJobId_eq : BackendJs.pathJobId = BackendTs.pathJobId := rfl

/-- C9: on the three job operations, given identical configuration and
store, the TLS-capable implementation and the plain-HTTP implementation
produce the same HTTP status, the same response body and the same
resulting store (CORS headers and transport aside). -/
theorem c9_variants_agree (cfg : Config) (req : Req) (store : List Job) (newId : String)
    (now : Nat) (hop : isJobOp req) :
    BackendTs.handleRequest cfg req store newId now =
      BackendJs.handleRequest cfg req store newId now := by
  unfold BackendTs.handleRequest BackendJs.handleRequest
  rw [checkAuth_eq, authFailure_eq, missingFields_eq, readBody_eq, makeJob_eq,
    jobToListItem_eq, getJob_eq, pathJobId_eq, sortedJobs_eq]

/-- Witness for C9: both variants agree on a concrete authenticated listing. -/
theorem c9_witness :
    BackendTs.handleRequest BackendTs.defaultConfig
        { method := "GET", path := "/reviews",
          clientKey := some "test-client-key", body := none } [wJobOld, wJobNew] "j" 9 =
      BackendJs.handleRequest BackendTs.defaultConfig
        { method := "GET", path := "/reviews",
          clientKey := some "test-client-key", body := none } [wJobOld, wJobNew] "j" 9 :=
  c9_variants_agree BackendTs.defaultConfig
    { method := "GET", path := "/reviews", clientKey := some "test-client-key", body := none }
    [wJobOld, wJobNew] "j" 9 (Or.inr (Or.inl ⟨rfl, rfl⟩))

/-- A required field is missing in the JavaScript sense: the key is absent
or its value is JSON `null`. -/
def fieldMissing (body : Json) (k : String) : Prop :=
  getField body k = none ∨ getField body k = some Json.null

theorem looseNull_eq_true_iff (body : Json) (k : String) :
    looseNull (getField body k) = true ↔ fieldMissing body k := by
  unfold fieldMissing
  rcases hg : getField body k with _ | v
  · simp [looseNull]
  · cases v <;> simp [looseNull]

/-- C10 (amended): for every authenticated `POST /reviews` whose parsed
body is not JSON `null`, validation checks only that each of the five
required keys is present and non-null — no type or content check — so a
body mapping every required key to any non-null value (booleans, numbers,
empty strings, objects, ...) is accepted with 202 and the created job
stores those values verbatim; the response is 422 exactly when at least
one of the five keys is absent or null.  (The body `null` itself parses
as JSON yet crashes the handler instead of producing the 422 the original
claim asserts; see the counterexample.) -/
theorem c10_validation_null_check_only (cfg : Config) (body : Json) (store : List Job)
    (newId : String) (now : Nat) (hbody : body ≠ Json.null) :
    ((∀ k ∈ BackendTs.requiredFields, ¬ fieldMissing body k) →
      BackendTs.handleRequest cfg
          { method := "POST", path := "/reviews", clientKey := some cfg.clientKey,
            body := some body } store newId now =
        some (202, Resp.accepted newId, store ++ [BackendTs.makeJob body newId now])) ∧
    (∀ v, getField body "organizationUrl" = some v →
      (BackendTs.makeJob body newId now).organizationUrl = v) ∧
    (∀ v, getField body "projectId" = some v →
      (BackendTs.makeJob body newId now).projectId = v) ∧
    (∀ v, getField body "repositoryId" = some v →
      (BackendTs.makeJob body newId now).repositoryId = v) ∧
    (∀ v, getField body "pullRequestId" = some v →
      (BackendTs.makeJob body newId now).pullRequestId = v) ∧
    (∀ v, getField body "iterationId" = some v →
      (BackendTs.makeJob body newId now).iterationId = v) ∧
    ((∃ k ∈ BackendTs.requiredFields, fieldMissing body k) ↔
      Option.map (fun r => r.1)
          (BackendTs.handleRequest cfg
            { method := "POST", path := "/reviews", clientKey := some cfg.clientKey,
              body := some body } store newId now) =
        some 422) := by
  have hloose : ∀ k, looseNull (getField body k) = true ↔ fieldMissing body k :=
    fun k => looseNull_eq_true_iff body k
  have hmf : BackendTs.missingFields body =
      some (BackendTs.requiredFields.filter (fun k => looseNull (getField body k))) := by
    unfold BackendTs.missingFields
    cases body <;> first | exact absurd rfl hbody | rfl
  have hget : ∀ (k : String) (v : Json), getField body k = some v →
      (getField body k).getD Json.null = v := by
    intro k v hv
    rw [hv]
    rfl
  by_cases hL : BackendTs.requiredFields.filter (fun k => looseNull (getField body k)) = []
  · have hrun : BackendTs.handleRequest cfg
        { method := "POST", path := "/reviews", clientKey := some cfg.clientKey,
          body := some body } store newId now =
        some (202, Resp.accepted newId, store ++ [BackendTs.makeJob body newId now]) := by
      simp [BackendTs.handleRequest, BackendTs.checkAuth, BackendTs.readBody, hmf, hL,
        BackendTs.makeJob]
    refine ⟨fun _ => hrun, fun v hv => hget _ v hv, fun v hv => hget _ v hv,
      fun v hv => hget _ v hv, fun v hv => hget _ v hv, fun v hv => hget _ v hv, ?_⟩
    rw [hrun]
    have hmap : Option.map (fun r : Nat × Resp × List Job => r.1)
        (some (202, Resp.accepted newId, store ++ [BackendTs.makeJob body newId now])) =
        some 202 := rfl
    rw [hmap]
    constructor
    · rintro ⟨k, hk, hmiss⟩
      exfalso
      have : looseNull (getField body k) = true := (hloose k).mpr hmiss
      have hkIn : k ∈ BackendTs.requiredFields.filter (fun k => looseNull (getField body k)) :=
        List.mem_filter.mpr ⟨hk, this⟩
      rw [hL] at hkIn
      cases hkIn
    · intro h
      exfalso
      rw [Option.some_inj] at h
      exact absurd h (by decide)
  · have hrun : BackendTs.handleRequest cfg
        { method := "POST", path := "/reviews", clientKey := some cfg.clientKey,
          body := some body } store newId now =
        some (422,
          Resp.errMsg ("Missing required fields: " ++ String.intercalate ", "
            (BackendTs.requiredFields.filter (fun k => looseNull (getField body k)))),
          store) := by
      simp [BackendTs.handleRequest, BackendTs.checkAuth, BackendTs.readBody, hmf, hL]
    refine ⟨?_, fun v hv => hget _ v hv, fun v hv => hget _ v hv,
      fun v hv => hget _ v hv, fun v hv => hget _ v hv, fun v hv => hget _ v hv, ?_⟩
    · intro hnone
      exfalso
      apply hL
      rw [List.filter_eq_nil]
      intro k hk
      rw [Bool.not_eq_true, ← Bool.not_eq_true, hloose k]
      exact hnone k hk
    · rw [hrun]
      constructor
      · intro _
        rfl
      · intro _
        rcases hex : BackendTs.requiredFields.filter (fun k => looseNull (getField body k)) with
          _ | ⟨k, rest⟩
        · exact absurd hex hL
        · refine ⟨k, ?_, ?_⟩
          · have : k ∈ BackendTs.requiredFields.filter
                (fun k => looseNull (getField body k)) := by
              rw [hex]
              exact List.mem_cons_self k rest
            exact (List.mem_filter.mp this).1
          · have : k ∈ BackendTs.requiredFields.filter
                (fun k => looseNull (getField body k)) := by
              rw [hex]
              exact List.mem_cons_self k rest
            exact (hloose k).mp (List.mem_filter.mp this).2

/-- Counterexample for C10 as stated: the body JSON `null` parses
successfully, every required key is absent on it, yet the handler does not
answer 422 — the property read `body[k]` throws and no response is sent
(modelled as `none`). -/
theorem c10_counterexample :
    fieldMissing Json.null "pullRequestId" ∧
    BackendTs.handleRequest BackendTs.defaultConfig
        { method := "POST", path := "/reviews", clientKey := some "test-client-key",
          body := some Json.null } [] "job-a" 0 = none ∧
    Option.map (fun r => r.1)
        (BackendTs.handleRequest BackendTs.defaultConfig
          { method := "POST", path := "/reviews", clientKey := some "test-client-key",
            body := some Json.null } [] "job-a" 0) ≠ some 422 := by
  refine ⟨Or.inl rfl, rfl, ?_⟩
  intro h
  exact Option.noConfusion h

/-- Witness for C10: a body mapping the five keys to a number, an empty
string, two booleans and the number 0 is accepted with 202 and stored
verbatim. -/
theorem c10_witness :
    BackendTs.handleRequest BackendTs.defaultConfig
        { method := "POST", path := "/reviews", clientKey := some "test-client-key",
          body := some (Json.obj
            [ ("organizationUrl", Json.num 3), ("projectId", Json.str "")
            , ("repositoryId", Json.bool true), ("pullRequestId", Json.bool false)
            , ("iterationId", Json.num 0) ]) } [] "job-b" 7 =
      some (202, Resp.accepted "job-b",
        [] ++ [BackendTs.makeJob (Json.obj
            [ ("organizationUrl", Json.num 3), ("projectId", Json.str "")
            , ("repositoryId", Json.bool true), ("pullRequestId", Json.bool false)
            , ("iterationId", Json.num 0) ]) "job-b" 7]) :=
  (c10_validation_null_check_only BackendTs.defaultConfig
      (Json.obj
        [ ("organizationUrl", Json.num 3), ("projectId", Json.str "")
        , ("repositoryId", Json.bool true), ("pullRequestId", Json.bool false)
        , ("iterationId", Json.num 0) ]) [] "job-b" 7 (by simp)).1
    (by
      intro k hk
      rw [← looseNull_eq_true_iff]
      unfold BackendTs.requiredFields at hk
      fin_cases hk <;> decide)

/-- C3 (code bug): on an authenticated `POST /reviews` whose raw body is
the valid JSON text `null`, the handler reads a property of `null`,
throws, and never sends the 422 the claim requires; the store is not
touched but no response exists at all. -/
theorem c3_null_body_crash :
    BackendTs.handleRequest BackendTs.defaultConfig
        { method := "POST", path := "/reviews", clientKey := some "test-client-key",
          body := some Json.null } [] "job-a" 0 = none := rfl
